import Mathlib

/-!
# Smart Alpha Dashboard — shallow embedding and verification

A shallow embedding of the scoring pipeline of the `smart_alpha_dashboard`
repository (files `core/scoring.py`, `core/utils.py`, `core/data_sources.py`,
`smart_alpha_dashboard.py`), together with theorems settling the spec claims.

Python floats are modelled by `ℚ` (exact arithmetic; the claims under study are
about clipping, branching and absence-handling, not rounding), except where the
source applies `math.log10`, which is modelled over `ℝ` with `Real.logb 10`.
A Python value that may be `None` is modelled as an `Option`; Python truthiness
of a number (`x` is truthy iff it is neither `None` nor `0`) and of a string or
list (truthy iff non-empty) is modelled explicitly at each use site.
-/

namespace SmartAlpha

/-- `core/scoring.py` / `nz(x, d=0.0)`: `float(x)`, or the default `d` when the
conversion fails (in particular when `x is None`). On an `Option` input the
conversion succeeds exactly when the value is present; polymorphic so it
serves both the `ℚ`-modelled and the `ℝ`-modelled call sites. -/
def nz {α : Type} (x : Option α) (d : α) : α :=
  match x with
  | some v => v
  | none => d

/-- `core/scoring.py` / `momentum_score`: weighted sum of the four clipped
change percentages plus the volume-acceleration term. Each line mirrors one
`s +=` statement of the source. -/
def momentum_score (chg_15m chg_1h chg_4h chg_24h vol_acc : Option ℚ) : ℚ :=
  let s : ℚ := 0
  let s := s + max (min (nz chg_15m 0) 50) (-25) * 0.20
  let s := s + max (min (nz chg_1h 0) 50) (-25) * 0.35
  let s := s + max (min (nz chg_4h 0) 60) (-30) * 0.20
  let s := s + max (min (nz chg_24h 0) 80) (-40) * 0.10
  let s := s + (max (min (nz vol_acc 0) 8) 0 - 1) * 12
  s

/-- `core/scoring.py` / `unlock_risk_score`: timing band (an `if/elif/elif`
chain, so at most one band applies) plus two additive percent penalties. -/
def unlock_risk_score (days_to_unlock pct_unlock : Option ℚ) : ℚ :=
  let d := nz days_to_unlock 999
  let p := nz pct_unlock 0
  let s : ℚ := 0
  let s := if d ≤ 3 ∧ p ≥ 1 then s - 5.0
           else if d ≤ 7 ∧ p ≥ 1 then s - 3.0
           else if d ≤ 14 ∧ p ≥ 1 then s - 1.5
           else s
  let s := if p ≥ 5 then s - 3.0 else s
  let s := if p ≥ 10 then s - 5.0 else s
  s

/-- `core/scoring.py` / `fundamental_score`: small-cap bonus (using
`math.log10`, hence modelled over `ℝ`), dilution adjustment, and
circulating-ratio adjustment. Each `let s := ...` mirrors one `if` block of
the source; `nz` turns an absent input into 0 as the source does. -/
noncomputable def fundamental_score (mcap_usd fdv_usd circ_r : Option ℝ) : ℝ :=
  let mc := nz mcap_usd 0
  let fdv := nz fdv_usd 0
  let cr := nz circ_r 0
  let s : ℝ := 0
  let s := if mc > 0 then s + max 0 (12 - Real.logb 10 mc) else s
  let s := if fdv > 0 ∧ mc > 0 then
             (if fdv / mc < 1.3 then s + 2.0
              else if fdv / mc < 2.0 then s + 0.5
              else s - 1.0)
           else s
  let s := if cr > 0 then
             (if cr ≥ 0.6 then s + 1.5
              else if cr ≤ 0.2 then s - 1.0
              else s)
           else s
  s

/-- The component dictionary handed to `smart_alpha_score`: the source does
`components.get(key, 0)`, so each entry may be absent (default 0). -/
structure Components where
  momentum : Option ℚ
  fundamentals : Option ℚ
  unlock : Option ℚ
  usage : Option ℚ

/-- `core/scoring.py` / `smart_alpha_score`: fixed-weight sum of the four
sub-scores, shifted by +50 and capped to `[0, 100]`. -/
def smart_alpha_score (c : Components) : ℚ :=
  let total := (c.momentum.getD 0) * 0.35 + (c.fundamentals.getD 0) * 0.25 +
               (c.unlock.getD 0) * 0.20 + (c.usage.getD 0) * 0.20
  max 0.0 (min 100.0 (total + 50))

/-- `smart_alpha_dashboard.py` / `vol_accel` (line 94):
`(vol_last_1h + 1) / (vol_prev_6h + 1) if (vol_last_1h and vol_prev_6h) else None`.
Python truthiness of a float-or-None: truthy iff present and nonzero. -/
def vol_accel (vol_last_1h vol_prev_6h : Option ℚ) : Option ℚ :=
  match vol_last_1h, vol_prev_6h with
  | some l, some p => if l ≠ 0 ∧ p ≠ 0 then some ((l + 1) / (p + 1)) else none
  | _, _ => none

/-- `smart_alpha_dashboard.py` line 108:
`circ_ratio = (circ / total) if (circ and total and total > 0) else None`.
Both operands come from `safe_float(..., None)`, so each is float-or-`None`;
`and` chains Python truthiness (present and nonzero). -/
def circ_ratio (circ total : Option ℚ) : Option ℚ :=
  match circ, total with
  | some c, some t => if c ≠ 0 ∧ t ≠ 0 ∧ t > 0 then some (c / t) else none
  | _, _ => none

/-- One row of the alpha-token registry as normalized by
`get_alpha_token_list` (`core/data_sources.py`): the base `symbol` is
uppercased with empty-string default; the other registry fields are
pass-through provenance, represented here by `alphaId`. -/
structure AlphaRow where
  symbol : String
  alphaId : Option String
deriving DecidableEq, Repr

/-- `core/data_sources.py` / `map_alpha_to_binance`: for each registry row,
skip an empty base symbol (`if not base: continue`), form
`spot = base + "USDT"` and keep the row (with its spot symbol) only when
`spot` is among the actively tradable USDT spot symbols. -/
def map_alpha_to_binance (alpha : List AlphaRow) (usdt_spot_symbols : List String) :
    List (AlphaRow × String) :=
  alpha.filterMap (fun r =>
    if r.symbol = "" then none
    else if (r.symbol ++ "USDT") ∈ usdt_spot_symbols then some (r, r.symbol ++ "USDT")
    else none)

/-! ## Klines and the candle-derived signals (`data_sources.py`, dashboard lines 71–94) -/

/-- One kline (candle) bar: the dashboard reads index 0 (open time),
index 4 (close) and index 5 (volume) of the raw array. -/
structure Kline where
  openTime : ℚ
  close : ℚ
  volume : ℚ
deriving DecidableEq, Repr

/-- The module-level base-URL bindings of `core/data_sources.py` (lines
13–15): `BINANCE_PRIMARY`, `BINANCE_BACKUP` and `BINANCE_DATA` are defined;
no global named `BINANCE` is ever bound. -/
def binance_globals : List (String × String) :=
  [("BINANCE_PRIMARY", "https://api1.binance.com"),
   ("BINANCE_BACKUP", "https://api2.binance.com"),
   ("BINANCE_DATA", "https://data-api.binance.vision")]

/-- `core/data_sources.py` / `get_klines` (line 56): interpolates the global
name `BINANCE` into the URL. Python resolves the name at call time against the
module globals; an unbound name raises `NameError` before any request is made.
`fetch` stands for the HTTP layer that would serve the request if the URL were
ever built. -/
def get_klines (fetch : String → Except String (List Kline))
    (symbol interval : String) (limit : Nat) : Except String (List Kline) :=
  match binance_globals.lookup "BINANCE" with
  | some base =>
      fetch (base ++ "/api/v3/klines?symbol=" ++ symbol ++ "&interval=" ++ interval ++
             "&limit=" ++ toString limit)
  | none => .error "NameError: name BINANCE is not defined"

/-- Dashboard `pct_from(kl, n)` (lines 78–84): `None` if the series is absent
or shorter than 2 bars; else take the last `n` bars (or all of them when fewer
than `n`), and return the close-to-close percentage change, `None` when the
base close is not positive. -/
def pct_from (kl : Option (List Kline)) (n : Nat) : Option ℚ :=
  match kl with
  | none => none
  | some l =>
    if l.length < 2 then none
    else
      let sub := if n ≤ l.length then l.drop (l.length - n) else l
      match sub.head?, sub.getLast? with
      | some a, some b =>
          if a.close > 0 then some ((b.close - a.close) / a.close * 100) else none
      | _, _ => none

/-- The five candle-derived signals assembled per candidate
(dashboard lines 86–94). -/
structure CandleSignals where
  chg_15m : Option ℚ
  chg_1h : Option ℚ
  chg_4h : Option ℚ
  chg_24h : Option ℚ
  accel : Option ℚ
deriving DecidableEq, Repr

/-- Dashboard lines 71–94: fetch the 1h and 15m series inside one `try` (any
exception leaves both `None`), then derive the four percentage changes and the
volume acceleration. `if kl15` / `if kl1h` is Python list truthiness:
non-`None` and non-empty. -/
def assemble_candle_signals (fetch : String → Except String (List Kline))
    (sym : String) : CandleSignals :=
  let fetched : Option (List Kline × List Kline) :=
    match get_klines fetch sym "1h" 60, get_klines fetch sym "15m" 48 with
    | .ok a, .ok b => some (a, b)
    | _, _ => none
  let kl1h : Option (List Kline) := fetched.map (fun p => p.1)
  let kl15 : Option (List Kline) := fetched.map (fun p => p.2)
  let chg_15m := match kl15 with
    | some (k :: ks) => pct_from (some (k :: ks)) 2
    | _ => none
  let chg_1h := match kl1h with
    | some (k :: ks) => pct_from (some (k :: ks)) 2
    | _ => none
  let chg_4h := match kl1h with
    | some (k :: ks) => pct_from (some (k :: ks)) 5
    | _ => none
  let chg_24h := match kl1h with
    | some (k :: ks) => pct_from (some (k :: ks)) 25
    | _ => none
  let vol_last_1h : Option ℚ := match kl1h with
    | some (k :: ks) => some ((k :: ks).getLast (by simp)).volume
    | _ => none
  let vol_prev_6h : Option ℚ := match kl1h with
    | some (k :: ks) =>
        let l := k :: ks
        let window := if 7 ≤ l.length then (l.drop (l.length - 7)).take 6 else []
        some ((window.map (fun x => x.volume)).sum / 6)
    | _ => none
  { chg_15m := chg_15m, chg_1h := chg_1h, chg_4h := chg_4h, chg_24h := chg_24h,
    accel := vol_accel vol_last_1h vol_prev_6h }

/-! ## The HTTP fetch client (`core/utils.py` / `HttpClient.jget`) -/

/-- The observable outcome of one HTTP attempt: a thrown network error, or a
response with an HTTP status code and a (parsed JSON) body. -/
inductive Attempt where
  | netErr (msg : String)
  | status (code : Nat) (body : String)
deriving DecidableEq, Repr

/-- The retry loop of `jget` (`core/utils.py` lines 29–40). `f i` is the
outcome of the `i`-th request. Statuses 429/418/520/525 `continue` without
recording an error; any other status ≥ 400 makes `raise_for_status` throw,
which the bare `except` records as the last error before looping; a network
error is likewise recorded; a status < 400 returns the body. `fuel` is the
number of remaining loop iterations. -/
def jget_go (f : Nat → Attempt) : Nat → Nat → Option String → Except String String
  | _, 0, last_err => .error (last_err.getD "RuntimeError: HTTP GET failed")
  | i, fuel + 1, last_err =>
    match f i with
    | .status c body =>
        if c = 429 ∨ c = 418 ∨ c = 520 ∨ c = 525 then
          jget_go f (i + 1) fuel last_err
        else if c < 400 then .ok body
        else jget_go f (i + 1) fuel (some ("HTTPError: status " ++ toString c))
    | .netErr m => jget_go f (i + 1) fuel (some m)

/-- `core/utils.py` / `HttpClient.jget`: `for i in range(retries)` around one
attempt, then `raise last_err or RuntimeError("HTTP GET failed")`. -/
def jget (f : Nat → Attempt) (retries : Nat) : Except String String :=
  jget_go f 0 retries none

/-- Attempt classifier: `raise_for_status` passes exactly for status < 400,
so a successful attempt is a response with status < 400. -/
def Attempt.isSuccess : Attempt → Bool
  | .status c _ => c < 400
  | .netErr _ => false

/-- The error an attempt records in `last_err`, if any: rate-limit-class
statuses (429/418/520/525) `continue` without recording; a status < 400
returns instead of raising; any other status makes `raise_for_status` throw
an `HTTPError`; a network error is recorded as thrown. -/
def Attempt.raisedMsg : Attempt → Option String
  | .status c _ =>
      if c = 429 ∨ c = 418 ∨ c = 520 ∨ c = 525 then none
      else if c < 400 then none
      else some ("HTTPError: status " ++ toString c)
  | .netErr m => some m

/-! ## Unlock-event parsing (`core/data_sources.py` / `parse_next_unlock`) -/

/-- One unlock event as found in the flexible upstream payload: every key the
parser probes for, each possibly absent. Dates are ISO strings (chronological
order is their lexicographic order); numeric fields are float-or-absent. -/
structure UnlockEvent where
  date : Option String
  time : Option String
  unlockDate : Option String
  percent : Option ℚ
  pct : Option ℚ
  percentage : Option ℚ
  usdValue : Option ℚ
  valueUsd : Option ℚ
  usd : Option ℚ
deriving DecidableEq, Repr

/-- The unlock payload: the parser reads `unlocks.get("upcoming") or
unlocks.get("events") or []`, so each key may be absent. (The source also
wraps a single dict into a one-element list; the list shape is taken here.) -/
structure UnlockPayload where
  upcoming : Option (List UnlockEvent)
  events : Option (List UnlockEvent)
deriving DecidableEq, Repr

/-- The parser's result `{"next_date": ..., "next_pct": ..., "next_usd": ...}`,
each field `None` when unknown. -/
structure NextUnlock where
  next_date : Option String
  next_pct : Option ℚ
  next_usd : Option ℚ
deriving DecidableEq, Repr

/-- Python `a or b` on string-or-`None` operands: `a` when truthy (present and
non-empty), else `b`. -/
def orStr (a b : Option String) : Option String :=
  match a with
  | some s => if s = "" then b else some s
  | none => b

/-- Python `a or b` on float-or-`None` operands: `a` when truthy (present and
nonzero), else `b`. -/
def orQ (a b : Option ℚ) : Option ℚ :=
  match a with
  | some x => if x = 0 then b else some x
  | none => b

/-- `core/utils.py` / `safe_float(x, default)`: `float(x)` or the default; on
a float-or-`None` input the conversion succeeds exactly when present. -/
def safe_float (x : Option ℚ) (default : Option ℚ) : Option ℚ :=
  match x with
  | some v => some v
  | none => default

/-- `core/data_sources.py` / `parse_next_unlock` (lines 152–168): take the
`upcoming` list if truthy, else `events` if truthy, else `[]`; if non-empty,
read the fields of `evs[0]` through the alias chains
`date or time or unlockDate`, `percent or pct or percentage`,
`usdValue or valueUsd or usd`; absent everything stays `None`. -/
def parse_next_unlock (u : UnlockPayload) : NextUnlock :=
  let evs : List UnlockEvent :=
    match u.upcoming with
    | some (e :: es) => e :: es
    | _ =>
      match u.events with
      | some (e :: es) => e :: es
      | _ => []
  match evs with
  | [] => { next_date := none, next_pct := none, next_usd := none }
  | e :: _ =>
    { next_date := orStr e.date (orStr e.time e.unlockDate),
      next_pct := safe_float (orQ e.percent (orQ e.pct e.percentage)) none,
      next_usd := safe_float (orQ e.usdValue (orQ e.valueUsd e.usd)) none }

/-! ## Fundamentals identifier resolution
(`core/data_sources.py` / `cg_find_id_by_symbol_platform`) -/

/-- One coin of a provider response: `c.get("symbol", "")` and `c.get("id")`,
both possibly absent. -/
structure CGCoin where
  symbol : Option String
  id : Option String
deriving DecidableEq, Repr

/-- Python `str.lower()`, modelled character-wise over the string's data
(identical semantics for the ASCII ticker symbols involved; Lean's own
`String.toLower` is definitionally opaque to kernel reduction). -/
def py_lower (s : String) : String :=
  ⟨s.data.map Char.toLower⟩

/-- The fallback of `cg_find_id_by_symbol_platform` (lines 117–123): scan the
full `/coins/list` response for an exact (lowercased) symbol match and return
that coin's `id`; `None` when the request failed or nothing matched. -/
def cg_full_list_scan (sym : String) (full_list : Except Unit (List CGCoin)) :
    Option String :=
  match full_list with
  | .ok coins =>
      match coins.find? (fun c => py_lower (c.symbol.getD "") == sym) with
      | some c => c.id
      | none => none
  | .error _ => none

/-- `core/data_sources.py` / `cg_find_id_by_symbol_platform` (lines 100–124):
lowercase the queried symbol; on a successful `/search` call, return the `id`
of the first coin whose symbol matches exactly, else — whenever the search
returned *any* coins — the `id` of the first search result (`coins[0]`);
only when the search raised or returned no coins, scan the full coin list for
an exact match; else `None`. `search` and `full_list` are the outcomes of the
two HTTP calls. -/
def cg_find_id_by_symbol_platform (symbol_upper : String)
    (search : Except Unit (List CGCoin)) (full_list : Except Unit (List CGCoin)) :
    Option String :=
  let sym := py_lower symbol_upper
  match search with
  | .ok coins =>
      match coins.find? (fun c => py_lower (c.symbol.getD "") == sym) with
      | some c => c.id
      | none =>
        match coins with
        | c :: _ => c.id
        | [] => cg_full_list_scan sym full_list
  | .error _ => cg_full_list_scan sym full_list

end SmartAlpha

namespace SmartAlpha

/-- **C1.** For every 4-tuple of real sub-scores (momentum `m`, fundamentals
`f`, unlock-risk `u`, usage `g`), `smart_alpha_score` equals
`min(100, max(0, 0.35*m + 0.25*f + 0.20*u + 0.20*g + 50))`, and the result
always lies in `[0, 100]`, even for pathological/extreme sub-scores. -/
theorem smart_alpha_score_clamped (m f u g : ℚ) :
    smart_alpha_score ⟨some m, some f, some u, some g⟩ =
      min 100 (max 0 (0.35 * m + 0.25 * f + 0.20 * u + 0.20 * g + 50)) ∧
    0 ≤ smart_alpha_score ⟨some m, some f, some u, some g⟩ ∧
    smart_alpha_score ⟨some m, some f, some u, some g⟩ ≤ 100 := by
  have hcomm : ∀ x : ℚ, max 0 (min 100 x) = min 100 (max 0 x) := by
    intro x
    rw [max_min_distrib_left]
    norm_num
  refine ⟨?_, ?_, ?_⟩
  · simp only [smart_alpha_score, Option.getD_some]
    norm_num
    rw [hcomm]
    ring_nf
  · simp only [smart_alpha_score, Option.getD_some]
    norm_num
  · simp only [smart_alpha_score, Option.getD_some]
    norm_num

/-- **C5.** `momentum_score` equals
`0.20*clip(chg_15m,−25,50) + 0.35*clip(chg_1h,−25,50) + 0.20*clip(chg_4h,−30,60)
 + 0.10*clip(chg_24h,−40,80) + (clip(accel,0,8) − 1)*12`,
and in particular `chg_1h = 1000` is treated identically to `chg_1h = 50`
(upper clip at 50 for that term), all other inputs equal. -/
theorem momentum_score_clips (a b c d v : ℚ) :
    (momentum_score (some a) (some b) (some c) (some d) (some v) =
       0.20 * max (min a 50) (-25) + 0.35 * max (min b 50) (-25) +
       0.20 * max (min c 60) (-30) + 0.10 * max (min d 80) (-40) +
       (max (min v 8) 0 - 1) * 12) ∧
    momentum_score (some a) (some 1000) (some c) (some d) (some v) =
      momentum_score (some a) (some 50) (some c) (some d) (some v) := by
  constructor
  · simp only [momentum_score, nz]
    ring_nf
  · simp only [momentum_score, nz]
    norm_num

/-- **C2 counterexample.** With both volumes 0, `vol_accel` is indeed
unavailable (`none`), but an absent acceleration does **not** contribute 0 to
`momentum_score`: with every input absent all four change terms are 0, yet the
score is −12 — the acceleration term of an absent accel is −12, not 0. -/
theorem momentum_accel_absent_not_zero :
    vol_accel (some 0) (some 0) = none ∧
    momentum_score none none none none none = -12 ∧
    (-12 : ℚ) ≠ 0 := by
  refine ⟨rfl, ?_, by norm_num⟩
  simp only [momentum_score, nz]
  norm_num

/-- **C2 amended.** When the most recent bar's volume and the trailing 6-bar
average volume are both 0, volume acceleration is treated as unavailable (no
0/0 division is attempted); an absent acceleration is substituted by `nz` with
the default 0, so the acceleration term equals `(clip(0,0,8) − 1) × 12 = −12`
— a fixed penalty of −12 relative to the neutral accel value 1, not 0. -/
theorem momentum_accel_absent_penalty (a b c d : Option ℚ) :
    vol_accel (some 0) (some 0) = none ∧
    momentum_score a b c d none = momentum_score a b c d (some 0) ∧
    momentum_score a b c d none - momentum_score a b c d (some 1) = -12 := by
  refine ⟨rfl, rfl, ?_⟩
  simp only [momentum_score, nz]
  norm_num

/-- **C4.** `unlock_risk_score` applies exactly one timing band, nearest-first
(`d≤3 ∧ p≥1 → −5`; else `d≤7 ∧ p≥1 → −3`; else `d≤14 ∧ p≥1 → −1.5`), and
independently adds `p≥5 → −3` and `p≥10 → −5` on top of the timing penalty;
in particular `unlock_risk_score(days_to_unlock=2, pct=2) = −5` exactly. -/
theorem unlock_risk_score_bands (d p : ℚ) :
    (unlock_risk_score (some d) (some p) =
       (if d ≤ 3 ∧ p ≥ 1 then -5.0
        else if d ≤ 7 ∧ p ≥ 1 then -3.0
        else if d ≤ 14 ∧ p ≥ 1 then -1.5 else 0) +
       (if p ≥ 5 then -3.0 else 0) + (if p ≥ 10 then -5.0 else 0)) ∧
    unlock_risk_score (some 2) (some 2) = -5.0 := by
  constructor
  · simp only [unlock_risk_score, nz]
    split_ifs <;> ring
  · simp only [unlock_risk_score, nz]
    norm_num

/-- **C8.** `circ_ratio` is computed as circulating/total only when both
operands are present and total > 0; when total supply is 0 or absent the
result is unknown (`none`) — no division by zero is attempted — and an
unknown ratio contributes exactly 0 to `fundamental_score` (the score reduces
to the market-cap and dilution terms plus 0). -/
theorem circ_ratio_safe :
    (∀ c t r : ℚ, circ_ratio (some c) (some t) = some r →
       0 < t ∧ r = c / t) ∧
    (∀ c : Option ℚ, circ_ratio c none = none) ∧
    (∀ c : Option ℚ, circ_ratio c (some 0) = none) ∧
    (∀ mc fdv : Option ℝ, fundamental_score mc fdv none =
       (if nz mc 0 > 0 then max 0 (12 - Real.logb 10 (nz mc 0)) else 0) +
       (if nz fdv 0 > 0 ∧ nz mc 0 > 0 then
          (if nz fdv 0 / nz mc 0 < 1.3 then 2.0
           else if nz fdv 0 / nz mc 0 < 2.0 then 0.5
           else -1.0)
        else 0) + 0) := by
  refine ⟨?_, ?_, ?_, ?_⟩
  · intro c t r h
    simp only [circ_ratio] at h
    split_ifs at h with hc
    exact ⟨hc.2.2, (Option.some_inj.mp h).symm⟩
  · intro c
    cases c <;> rfl
  · intro c
    cases c <;> simp [circ_ratio]
  · intro mc fdv
    simp only [fundamental_score, nz]
    rw [if_neg (by norm_num : ¬ (0:ℝ) > 0)]
    split_ifs <;> ring

/-- Witness for `circ_ratio_safe`: at circulating 4 and total 8 the ratio is
present, and the theorem yields `0 < 8` and `1/2 = 4/8`. -/
theorem circ_ratio_safe_witness : 0 < (8 : ℚ) ∧ (1/2 : ℚ) = 4 / 8 :=
  circ_ratio_safe.1 4 8 (1/2) (by norm_num [circ_ratio])

/-- **C9.** Universe resolution returns exactly those alpha-registry rows
whose non-empty base symbol, concatenated with the fixed quote asset `USDT`,
occurs in the set of tradable USDT spot symbols; given registry
`{BASE1, BASE2}` and tradable set `{BASE1USDT}`, the resolved universe is
exactly `{BASE1USDT}`. -/
theorem map_alpha_to_binance_exact :
    (∀ (alpha : List AlphaRow) (syms : List String) (r : AlphaRow) (s : String),
       ((r, s) ∈ map_alpha_to_binance alpha syms ↔
         r ∈ alpha ∧ r.symbol ≠ "" ∧ s = r.symbol ++ "USDT" ∧
           (r.symbol ++ "USDT") ∈ syms)) ∧
    map_alpha_to_binance [⟨"BASE1", none⟩, ⟨"BASE2", none⟩] ["BASE1USDT"] =
      [(⟨"BASE1", none⟩, "BASE1USDT")] := by
  constructor
  · intro alpha syms r s
    simp only [map_alpha_to_binance, List.mem_filterMap]
    constructor
    · rintro ⟨a, ha, heq⟩
      split_ifs at heq with h1 h2
      have h' := Option.some_inj.mp heq
      have har : a = r := congrArg Prod.fst h'
      have hs : a.symbol ++ "USDT" = s := congrArg Prod.snd h'
      subst har
      exact ⟨ha, h1, hs.symm, h2⟩
    · rintro ⟨hr, hne, rfl, hmem⟩
      exact ⟨r, hr, by simp [hne, hmem]⟩
  · decide

/-- **C3.** For every symbol, interval and limit, `get_klines` raises
(`NameError`: the interpolated global `BINANCE` is never bound — only
`BINANCE_PRIMARY`, `BINANCE_BACKUP` and `BINANCE_DATA` exist in the module),
whatever the HTTP layer would have answered; consequently, in the dashboard
pipeline every candle-derived signal (15m/1h/4h/24h change and volume
acceleration) is absent for every candidate. -/
theorem get_klines_name_error :
    (∀ (fetch : String → Except String (List Kline)) (sym interval : String)
       (limit : Nat),
       get_klines fetch sym interval limit =
         .error "NameError: name BINANCE is not defined") ∧
    (∀ (fetch : String → Except String (List Kline)) (sym : String),
       assemble_candle_signals fetch sym =
         { chg_15m := none, chg_1h := none, chg_4h := none, chg_24h := none,
           accel := none }) :=
  ⟨fun _ _ _ _ => rfl, fun _ _ => rfl⟩

/-- **C6 counterexample.** `parse_next_unlock` does not select the event with
the minimum date: with two known events dated `2026-12-01` and `2026-11-01`
(in that payload order), it returns the first one, dated `2026-12-01`, even
though `2026-11-01` is strictly earlier. -/
theorem parse_next_unlock_not_min_date :
    (parse_next_unlock
      { upcoming := some
          [{ date := some "2026-12-01", time := none, unlockDate := none,
             percent := some 5, pct := none, percentage := none,
             usdValue := none, valueUsd := none, usd := none },
           { date := some "2026-11-01", time := none, unlockDate := none,
             percent := some 2, pct := none, percentage := none,
             usdValue := none, valueUsd := none, usd := none }],
        events := none }).next_date = some "2026-12-01" ∧
    (("2026-11-01" : String) < "2026-12-01") ∧
    (some "2026-12-01" ≠ some "2026-11-01") := by
  refine ⟨rfl, ?_, by decide⟩
  rw [String.lt_iff_toList_lt]
  decide

/-- **C6 amended.** For every payload with a non-empty event list,
`parse_next_unlock` tolerates the key spellings `date`/`time`/`unlockDate`,
`percent`/`pct`/`percentage`, `usdValue`/`valueUsd`/`usd` (Python `or`
chains), defaults every absent field to `None` rather than zero, and returns
the **first event of the list** (`upcoming` if truthy, else `events`) — not
the chronologically-minimal event. -/
theorem parse_next_unlock_first_event (e : UnlockEvent) (es : List UnlockEvent)
    (ev : Option (List UnlockEvent)) :
    (parse_next_unlock { upcoming := some (e :: es), events := ev } =
       { next_date := orStr e.date (orStr e.time e.unlockDate),
         next_pct := safe_float (orQ e.percent (orQ e.pct e.percentage)) none,
         next_usd := safe_float (orQ e.usdValue (orQ e.valueUsd e.usd)) none }) ∧
    (parse_next_unlock { upcoming := none, events := some (e :: es) } =
       parse_next_unlock { upcoming := some (e :: es), events := none }) ∧
    (parse_next_unlock { upcoming := some [], events := some (e :: es) } =
       parse_next_unlock { upcoming := some (e :: es), events := none }) ∧
    (parse_next_unlock { upcoming := none, events := none } =
       { next_date := none, next_pct := none, next_usd := none }) ∧
    (parse_next_unlock
       { upcoming := some
           [{ date := none, time := none, unlockDate := none,
              percent := none, pct := none, percentage := none,
              usdValue := none, valueUsd := none, usd := none }],
         events := none } =
       { next_date := none, next_pct := none, next_usd := none }) :=
  ⟨rfl, rfl, rfl, rfl, rfl⟩

/-- Auxiliary for the `jget` loop: if the first `k` attempts from index `i`
all fail (in any way) and attempt `i + k` is a success (status < 400) still
within the remaining fuel, the loop returns that attempt's body. -/
theorem jget_go_ok (f : Nat → Attempt) :
    ∀ (k fuel i : Nat) (last : Option String) (c : Nat) (body : String),
      k < fuel →
      (∀ j, j < k → (f (i + j)).isSuccess = false) →
      f (i + k) = .status c body → c < 400 →
      jget_go f i fuel last = .ok body := by
  intro k
  induction k with
  | zero =>
    intro fuel i last c body hk hfail hfk hc
    cases fuel with
    | zero => omega
    | succ fuel =>
      simp only [jget_go]
      rw [show i + 0 = i from rfl] at hfk
      rw [hfk]
      dsimp only
      rw [if_neg (by omega : ¬(c = 429 ∨ c = 418 ∨ c = 520 ∨ c = 525)), if_pos hc]
  | succ k ih =>
    intro fuel i last c body hk hfail hfk hc
    cases fuel with
    | zero => omega
    | succ fuel =>
      have h0 : (f i).isSuccess = false := by
        simpa using hfail 0 (Nat.succ_pos k)
      have hshift : ∀ j, j < k → (f (i + 1 + j)).isSuccess = false := by
        intro j hj
        rw [show i + 1 + j = i + (j + 1) by omega]
        exact hfail (j + 1) (by omega)
      have hfk' : f (i + 1 + k) = .status c body := by
        rw [show i + 1 + k = i + (k + 1) by omega]
        exact hfk
      simp only [jget_go]
      cases hfi : f i with
      | status c' b' =>
        rw [hfi] at h0
        have hc' : ¬ c' < 400 := by simpa [Attempt.isSuccess] using h0
        dsimp only
        by_cases ht : c' = 429 ∨ c' = 418 ∨ c' = 520 ∨ c' = 525
        · rw [if_pos ht]
          exact ih fuel (i + 1) last c body (by omega) hshift hfk' hc
        · rw [if_neg ht, if_neg hc']
          exact ih fuel (i + 1) _ c body (by omega) hshift hfk' hc
      | netErr m =>
        exact ih fuel (i + 1) _ c body (by omega) hshift hfk' hc

/-- Auxiliary for the `jget` loop: if every attempt within the fuel fails,
the loop ends in an error. -/
theorem jget_go_err (f : Nat → Attempt) :
    ∀ (fuel i : Nat) (last : Option String),
      (∀ j, j < fuel → (f (i + j)).isSuccess = false) →
      ∃ e, jget_go f i fuel last = .error e := by
  intro fuel
  induction fuel with
  | zero => intro i last _; exact ⟨_, rfl⟩
  | succ fuel ih =>
    intro i last hfail
    have h0 : (f i).isSuccess = false := by
      simpa using hfail 0 (Nat.succ_pos fuel)
    have hshift : ∀ j, j < fuel → (f (i + 1 + j)).isSuccess = false := by
      intro j hj
      rw [show i + 1 + j = i + (j + 1) by omega]
      exact hfail (j + 1) (by omega)
    simp only [jget_go]
    cases hfi : f i with
    | status c b =>
      rw [hfi] at h0
      have hc : ¬ c < 400 := by simpa [Attempt.isSuccess] using h0
      dsimp only
      by_cases ht : c = 429 ∨ c = 418 ∨ c = 520 ∨ c = 525
      · rw [if_pos ht]
        exact ih (i + 1) last hshift
      · rw [if_neg ht, if_neg hc]
        exact ih (i + 1) _ hshift
    | netErr m =>
      exact ih (i + 1) _ hshift

/-- Auxiliary for the `jget` loop: if every attempt within the fuel fails and
the final attempt records an error message, the loop raises exactly that
message (it is the `last_err` at exhaustion). -/
theorem jget_go_last_err (f : Nat → Attempt) :
    ∀ (fuel i : Nat) (last : Option String) (m : String),
      0 < fuel →
      (∀ j, j < fuel → (f (i + j)).isSuccess = false) →
      (f (i + fuel - 1)).raisedMsg = some m →
      jget_go f i fuel last = .error m := by
  intro fuel
  induction fuel with
  | zero => omega
  | succ fuel ih =>
    intro i last m _ hfail hmsg
    have h0 : (f i).isSuccess = false := by
      simpa using hfail 0 (Nat.succ_pos fuel)
    have hshift : ∀ j, j < fuel → (f (i + 1 + j)).isSuccess = false := by
      intro j hj
      rw [show i + 1 + j = i + (j + 1) by omega]
      exact hfail (j + 1) (by omega)
    simp only [jget_go]
    cases fuel with
    | zero =>
      rw [show i + 0 + 1 - 1 = i by omega] at hmsg
      cases hfi : f i with
      | status c b =>
        rw [hfi] at h0 hmsg
        have hc : ¬ c < 400 := by simpa [Attempt.isSuccess] using h0
        dsimp only
        by_cases ht : c = 429 ∨ c = 418 ∨ c = 520 ∨ c = 525
        · rw [Attempt.raisedMsg, if_pos ht] at hmsg
          exact absurd hmsg (by simp)
        · rw [Attempt.raisedMsg, if_neg ht, if_neg hc] at hmsg
          rw [if_neg ht, if_neg hc]
          simp only [jget_go]
          simpa using hmsg
      | netErr m' =>
        rw [hfi] at hmsg
        simp only [Attempt.raisedMsg] at hmsg
        dsimp only
        simp only [jget_go]
        simpa using hmsg
    | succ fuel =>
      have hmsg' : (f (i + 1 + (fuel + 1) - 1)).raisedMsg = some m := by
        rw [show i + 1 + (fuel + 1) - 1 = i + (fuel + 1 + 1) - 1 by omega]
        exact hmsg
      cases hfi : f i with
      | status c b =>
        rw [hfi] at h0
        have hc : ¬ c < 400 := by simpa [Attempt.isSuccess] using h0
        dsimp only
        by_cases ht : c = 429 ∨ c = 418 ∨ c = 520 ∨ c = 525
        · rw [if_pos ht]
          exact ih (i + 1) last m (Nat.succ_pos fuel) hshift hmsg'
        · rw [if_neg ht, if_neg hc]
          exact ih (i + 1) _ m (Nat.succ_pos fuel) hshift hmsg'
      | netErr m' =>
        exact ih (i + 1) _ m (Nat.succ_pos fuel) hshift hmsg'

/-- **C7 counterexample.** A non-transient 404 does **not** fail immediately
without retry: with the first attempt answering 404 and the second answering
200, `jget` (default 3 retries) returns the second attempt's payload — the
404 was retried, not raised. -/
theorem jget_404_is_retried :
    jget (fun i => if i = 0 then Attempt.status 404 "not found"
                   else Attempt.status 200 "payload") 3 = .ok "payload" ∧
    (Except.ok "payload" : Except String String) ≠ .error "HTTPError: status 404" := by
  exact ⟨rfl, by simp⟩

/-- **C7 amended.** `jget` retries **every** failed attempt — rate-limit
statuses (429/418/520/525), thrown network errors, and non-transient HTTP
error statuses such as 404 alike — up to `retries` attempts (default 3, with
sleeps between attempts, not modelled here): the first attempt with status
< 400 within the budget has its payload returned even if earlier attempts
failed non-transiently; when every attempt fails, an error is raised, and it
is the last thrown error when the final attempt threw one. -/
theorem jget_retries_all_failures :
    (∀ (f : Nat → Attempt) (r i c : Nat) (body : String),
       i < r → (∀ j, j < i → (f j).isSuccess = false) →
       f i = .status c body → c < 400 →
       jget f r = .ok body) ∧
    (∀ (f : Nat → Attempt) (r : Nat),
       (∀ i, i < r → (f i).isSuccess = false) →
       ∃ e, jget f r = .error e) ∧
    (∀ (f : Nat → Attempt) (r : Nat) (m : String),
       0 < r → (∀ i, i < r → (f i).isSuccess = false) →
       (f (r - 1)).raisedMsg = some m →
       jget f r = .error m) := by
  refine ⟨?_, ?_, ?_⟩
  · intro f r i c body hir hfail hfi hc
    exact jget_go_ok f i r 0 none c body hir
      (fun j hj => by simpa using hfail j hj) (by simpa using hfi) hc
  · intro f r hfail
    exact jget_go_err f r 0 none (fun j hj => by simpa using hfail j hj)
  · intro f r m hr hfail hmsg
    exact jget_go_last_err f r 0 none m hr
      (fun j hj => by simpa using hfail j hj) (by simpa using hmsg)

/-- Witness for `jget_retries_all_failures`: a network error on the first
attempt followed by a 200 on the second yields the 200 payload within a
4-attempt budget. -/
theorem jget_retries_all_failures_witness :
    jget (fun i => if i = 0 then Attempt.netErr "connection reset"
                   else Attempt.status 200 "body2") 4 = .ok "body2" :=
  jget_retries_all_failures.1
    (fun i => if i = 0 then Attempt.netErr "connection reset"
              else Attempt.status 200 "body2")
    4 1 200 "body2" (by decide) (by decide) rfl (by decide)

/-- **C10 counterexample.** The fallback of `cg_find_id_by_symbol_platform` is
not bounded to the first 3 characters of the symbol: when no exact match
exists, the first search result is returned whatever its symbol — querying
`FOO` against a search response whose only coin has symbol `xyzabc` yields
that coin's id, although the first 3 characters do not match. -/
theorem cg_find_id_unbounded_fallback :
    cg_find_id_by_symbol_platform "FOO"
        (.ok [{ symbol := some "xyzabc", id := some "other-coin" }]) (.ok []) =
      some "other-coin" ∧
    "xyzabc".data.take 3 ≠ (py_lower "FOO").data.take 3 := by
  exact ⟨by decide, by decide⟩

/-- **C10 amended.** The resolver returns the id of the first coin whose
(lowercased) symbol exactly matches the lowercased query when the search
response contains one; when no exact match exists it falls back to the id of
the **first search result, unconditionally** (no 3-character-prefix bound);
only when the search failed or returned no coins does it scan the full coin
list for an exact symbol match. -/
theorem cg_find_id_exact_then_first (sym : String)
    (full_list : Except Unit (List CGCoin)) :
    (∀ (coins : List CGCoin) (c : CGCoin),
       coins.find? (fun x => py_lower (x.symbol.getD "") == py_lower sym) = some c →
       cg_find_id_by_symbol_platform sym (.ok coins) full_list = c.id) ∧
    (∀ (c : CGCoin) (cs : List CGCoin),
       (c :: cs).find? (fun x => py_lower (x.symbol.getD "") == py_lower sym) = none →
       cg_find_id_by_symbol_platform sym (.ok (c :: cs)) full_list = c.id) ∧
    (cg_find_id_by_symbol_platform sym (.ok []) full_list =
       cg_full_list_scan (py_lower sym) full_list) ∧
    (cg_find_id_by_symbol_platform sym (.error ()) full_list =
       cg_full_list_scan (py_lower sym) full_list) := by
  refine ⟨?_, ?_, rfl, rfl⟩
  · intro coins c h
    simp only [cg_find_id_by_symbol_platform, h]
  · intro c cs h
    simp only [cg_find_id_by_symbol_platform, h]

/-- Witness for `cg_find_id_exact_then_first`: querying `ABC` against a
search response holding an exactly matching coin returns that coin's id. -/
theorem cg_find_id_exact_then_first_witness :
    cg_find_id_by_symbol_platform "ABC"
        (.ok [{ symbol := some "abc", id := some "abc-id" }]) (.ok []) =
      some "abc-id" :=
  (cg_find_id_exact_then_first "ABC" (.ok [])).1
    [{ symbol := some "abc", id := some "abc-id" }]
    { symbol := some "abc", id := some "abc-id" } (by decide)

end SmartAlpha
